import Mathlib

set_option maxRecDepth 10000

/- Shallow embedding of the Wavefront OBJ loader of the Textured-Obj-Renderer
repository: the format parser in `src/objloader.cpp` / `src/objloader.h` and
the mesh-building part of `src/object.cpp` (`loadObj`, `makeVertex`, and the
corner-vertex diagnostic scan).

Numeric fields are modelled as exact scaled decimals (`FVal`: an integer
mantissa times a power of ten).  The C++ code parses fields with
`std::from_chars` into `float` and afterwards only copies the values and
compares them with `<` / `>`; none of the claims considered depends on
binary floating-point rounding, overflow to infinity, or the hexadecimal /
inf / nan spellings, so those are left outside the model.

`std::vector::operator[]` performs no bounds check in C++; an out-of-bounds
access has no defined result and is modelled by `Option.none`. -/

/-- Character list of a string literal. -/
def toL (s : String) : List Char := s.toList

/-- Value of a digit string, accumulated left to right as `std::from_chars`
does (`'0'.toNat = 48`). -/
def digitsVal (ds : List Char) : Nat :=
  ds.foldl (fun a c => a * 10 + (c.toNat - 48)) 0

/-- `std::from_chars` for `uint32_t`: reads the longest leading digit
sequence; it fails when there is no leading digit (`errc::invalid_argument`,
in particular on an empty field or a leading minus sign, which is not
accepted for an unsigned type) or when the value exceeds the `uint32_t`
range (`errc::result_out_of_range`).  All call sites in the repository check
only the error code and never the end pointer, so trailing characters after
the digits are ignored. -/
def fromCharsU32 (s : List Char) : Option Nat :=
  let ds := s.takeWhile Char.isDigit
  if ds.isEmpty then none
  else if digitsVal ds < 2 ^ 32 then some (digitsVal ds) else none

/-- Exact value of a parsed floating-point field: `num * 10 ^ exp`. -/
structure FVal where
  num : Int
  exp : Int
deriving DecidableEq, Repr

/-- An `FVal` denoting the integer `n`. -/
def FVal.ofNat (n : Nat) : FVal := ⟨n, 0⟩

/-- Exact order comparison of two scaled decimals (models `float` `<` on the
exactly-represented parsed values). -/
def FVal.blt (a b : FVal) : Bool :=
  let m := min a.exp b.exp
  a.num * 10 ^ (a.exp - m).toNat < b.num * 10 ^ (b.exp - m).toNat

/-- Exponent digits of the `from_chars` float grammar (after `e`/`E`):
an optionally signed digit sequence.  When no digit follows, `from_chars`
simply stops before the `e` and the exponent contributes nothing. -/
def expDigits (r : List Char) : Int :=
  match r with
  | '-' :: r2 =>
    let ds := r2.takeWhile Char.isDigit
    if ds.isEmpty then 0 else -(digitsVal ds : Int)
  | '+' :: r2 =>
    let ds := r2.takeWhile Char.isDigit
    if ds.isEmpty then 0 else (digitsVal ds : Int)
  | _ =>
    let ds := r.takeWhile Char.isDigit
    if ds.isEmpty then 0 else (digitsVal ds : Int)

/-- Exponent part of the `from_chars` float grammar: `e`/`E` followed by
`expDigits`, `0` when absent. -/
def expVal (s : List Char) : Int :=
  match s with
  | 'e' :: r => expDigits r
  | 'E' :: r => expDigits r
  | _ => 0

/-- `std::from_chars` for `float` (`chars_format::general` decimal grammar):
optional `-` (a leading `+` is not accepted), integer digits, optional `.`
and fraction digits — at least one digit in total — and an optional
exponent.  The result is the exact decimal value; the call sites check only
the error code, so characters after the recognized prefix are ignored. -/
def fromCharsFloat (s : List Char) : Option FVal :=
  let negAndRest : Bool × List Char :=
    match s with
    | '-' :: r => (true, r)
    | _ => (false, s)
  let neg := negAndRest.1
  let s1 := negAndRest.2
  let ds := s1.takeWhile Char.isDigit
  let s2 := s1.drop ds.length
  let fsAndRest : List Char × List Char :=
    match s2 with
    | '.' :: r => (r.takeWhile Char.isDigit, (r.takeWhile Char.isDigit).length |> r.drop)
    | _ => ([], s2)
  let fs := fsAndRest.1
  let s3 := fsAndRest.2
  if ds.isEmpty && fs.isEmpty then none
  else
    let mant : Int := digitsVal (ds ++ fs)
    some ⟨if neg then -mant else mant, expVal s3 - fs.length⟩

/-- `std::string_view::find(c)`: index of the first occurrence of `c`, or
`none` for `npos`. -/
def findSep (c : Char) : List Char → Option Nat
  | [] => none
  | a :: rest => if a = c then some 0 else (findSep c rest).map (· + 1)

/- Field extraction in `readPosition` / `readNormal` (objloader.cpp):
`firstSeparator = line.find(' ')`, `secondSeparator = line.find(' ',
firstSeparator + 1)`, then `substr`.  All index arithmetic is on `size_t`
with `npos = SIZE_MAX`, so when a separator is missing the `+ 1` wraps to
`0` and the counts wrap to huge values that `substr` clamps:
 - no space at all: `xStr`, `yStr` and `zStr` are all the whole line;
 - one space at `i`: `xStr = line[0..i)`, `yStr = line[i+1..)`, and
   `zStr = line.substr(npos + 1) = line` (the whole line again);
 - spaces at `i` and `j`: the three proper fields. -/

/-- The three field views read by `readPosition` / `readNormal`. -/
def fields3 (line : List Char) : List Char × List Char × List Char :=
  match findSep ' ' line with
  | none => (line, line, line)
  | some i =>
    match findSep ' ' (line.drop (i + 1)) with
    | none => (line.take i, line.drop (i + 1), line)
    | some k => (line.take i, (line.drop (i + 1)).take k, line.drop (i + 1 + k + 1))

/-- The two field views read by `readUV`: `substr(0, sep)` and
`substr(sep + 1)`; with no space, `npos` wrap makes both the whole line. -/
def fields2 (line : List Char) : List Char × List Char :=
  match findSep ' ' line with
  | none => (line, line)
  | some i => (line.take i, line.drop (i + 1))

/- Field extraction in `readFace`: three `find(' ')` calls (`firstSep`,
`secondSep`, `thirdSep`, each starting after the previous one, with the same
`size_t`/`npos` wrap), `hasFourth = thirdSep != npos`, then `substr`.  Note
that when `secondSep == npos` the third search restarts at index `npos + 1 =
0` and finds the first space again, so a two-field face line is treated as
having a fourth corner. -/

/-- The corner-specification views read by `readFace` together with the
`hasFourth` flag: `(i0Str, i1Str, i2Str, i3Str, hasFourth)`. -/
def fields4 (line : List Char) : List Char × List Char × List Char × List Char × Bool :=
  match findSep ' ' line with
  | none =>
    -- firstSep = npos: second and third searches restart at 0 and also fail
    (line, line, line, [], false)
  | some i =>
    match findSep ' ' (line.drop (i + 1)) with
    | none =>
      -- secondSep = npos: thirdSep = find(' ', 0) = firstSep, hasFourth = true;
      -- i2Str = substr(npos + 1, firstSep - npos - 1) = substr(0, firstSep)
      (line.take i, line.drop (i + 1), line.take i, line.drop (i + 1), true)
    | some k =>
      match findSep ' ' (line.drop (i + 1 + k + 1)) with
      | none =>
        (line.take i, (line.drop (i + 1)).take k, line.drop (i + 1 + k + 1), [], false)
      | some t =>
        (line.take i, (line.drop (i + 1)).take k,
          (line.drop (i + 1 + k + 1)).take t, line.drop (i + 1 + k + 1 + t + 1), true)

/-- The only failure the loader signals: `std::runtime_error` with a
message. -/
inductive ObjError where
  | parseError (msg : List Char)
deriving DecidableEq, Repr

instance {ε α : Type} [DecidableEq ε] [DecidableEq α] : DecidableEq (Except ε α) := fun a b =>
  match a, b with
  | .ok x, .ok y =>
    if h : x = y then .isTrue (by rw [h]) else .isFalse (by simp [h])
  | .error x, .error y =>
    if h : x = y then .isTrue (by rw [h]) else .isFalse (by simp [h])
  | .ok _, .error _ => .isFalse (by simp)
  | .error _, .ok _ => .isFalse (by simp)

/-- Message thrown by `readPosition` / `readNormal` / `readUV`:
`"Error loading line: " + line`, where `line` is the remainder passed in
(the input line without its leading token). -/
def lineErrMsg (rem : List Char) : List Char := toL "Error loading line: " ++ rem

/-- Message thrown by the `eat` lambda inside `readFace`:
`"Error loading face"`, with no part of the line included. -/
def faceErrMsg : List Char := toL "Error loading face"

/-- `obj::Position` (objloader.h). -/
structure Position where
  x : FVal
  y : FVal
  z : FVal
deriving DecidableEq, Repr

/-- `obj::Normal` (objloader.h). -/
structure VNormal where
  nx : FVal
  ny : FVal
  nz : FVal
deriving DecidableEq, Repr

/-- `obj::UV` (objloader.h). -/
structure UV where
  u : FVal
  v : FVal
deriving DecidableEq, Repr

/-- `obj::Face::Indices` (objloader.h): 0-based vertex index plus optional
0-based uv / normal indices. -/
structure Indices where
  vertex : Nat
  uv : Option Nat
  normal : Option Nat
deriving DecidableEq, Repr

/-- `obj::Face` (objloader.h): three corners and an optional fourth. -/
structure Face where
  i0 : Indices
  i1 : Indices
  i2 : Indices
  i3 : Option Indices
deriving DecidableEq, Repr

/-- `obj::Model` (objloader.h). -/
structure Model where
  positions : List Position
  normals : List VNormal
  uvs : List UV
  faces : List Face
deriving DecidableEq, Repr

/-- `readPosition` (objloader.cpp): three `from_chars` calls on the
`fields3` views; throws `"Error loading line: " + line` when any error code
is set. -/
def readPosition (line : List Char) : Except ObjError Position :=
  match fromCharsFloat (fields3 line).1, fromCharsFloat (fields3 line).2.1,
      fromCharsFloat (fields3 line).2.2 with
  | some x, some y, some z => .ok ⟨x, y, z⟩
  | _, _, _ => .error (.parseError (lineErrMsg line))

/-- `readNormal` (objloader.cpp): identical to `readPosition` up to the
result type. -/
def readNormal (line : List Char) : Except ObjError VNormal :=
  match fromCharsFloat (fields3 line).1, fromCharsFloat (fields3 line).2.1,
      fromCharsFloat (fields3 line).2.2 with
  | some x, some y, some z => .ok ⟨x, y, z⟩
  | _, _, _ => .error (.parseError (lineErrMsg line))

/-- `readUV` (objloader.cpp): two `from_chars` calls on the `fields2`
views. -/
def readUV (line : List Char) : Except ObjError UV :=
  match fromCharsFloat (fields2 line).1, fromCharsFloat (fields2 line).2 with
  | some u, some v => .ok ⟨u, v⟩
  | _, _ => .error (.parseError (lineErrMsg line))

/-- `res.vertex -= 1` on a `uint32_t`: decrement with 32-bit wraparound, so
an input index of `0` becomes `2 ^ 32 - 1`. -/
def dec32 (n : Nat) : Nat := (n + (2 ^ 32 - 1)) % 2 ^ 32

/-- The `eat` lambda inside `readFace` (objloader.cpp): reads the number
before the first `/` (the whole rest when there is none, since
`substr(0, npos)` is the whole view), throws `"Error loading face"` when
`from_chars` fails, and otherwise returns the value, the remaining view
after the `/`, and the `done` flag. -/
def eat (v : List Char) : Except ObjError (Nat × List Char × Bool) :=
  match findSep '/' v with
  | none =>
    match fromCharsU32 v with
    | none => .error (.parseError faceErrMsg)
    | some r => .ok (r, v, true)
  | some sep =>
    match fromCharsU32 (v.take sep) with
    | none => .error (.parseError faceErrMsg)
    | some r => .ok (r, v.drop (sep + 1), false)

/-- The `readIndices` lambda inside `readFace` (objloader.cpp): eats the
vertex index, then — if a `/` was seen — the uv index, then — if another
`/` was seen — the normal index, decrementing each by one with `uint32_t`
wraparound. -/
def readIndices (v : List Char) : Except ObjError Indices :=
  match eat v with
  | .error e => .error e
  | .ok (r0, v1, done1) =>
    if done1 then .ok ⟨dec32 r0, none, none⟩
    else
      match eat v1 with
      | .error e => .error e
      | .ok (r1, v2, done2) =>
        if done2 then .ok ⟨dec32 r0, some (dec32 r1), none⟩
        else
          match eat v2 with
          | .error e => .error e
          | .ok (r2, _, _) => .ok ⟨dec32 r0, some (dec32 r1), some (dec32 r2)⟩

/-- `readFace` (objloader.cpp): splits the remainder into three or four
corner specifications (`fields4`) and runs `readIndices` on each. -/
def readFace (line : List Char) : Except ObjError Face :=
  match fields4 line with
  | (s0, s1, s2, s3, hasFourth) =>
    match readIndices s0 with
    | .error e => .error e
    | .ok i0 =>
      match readIndices s1 with
      | .error e => .error e
      | .ok i1 =>
        match readIndices s2 with
        | .error e => .error e
        | .ok i2 =>
          if hasFourth then
            match readIndices s3 with
            | .error e => .error e
            | .ok i3 => .ok ⟨i0, i1, i2, some i3⟩
          else
            .ok ⟨i0, i1, i2, none⟩

/-- The token classification of `tokenize` (objloader.cpp). -/
inductive Token where
  | vertex
  | normal
  | uv
  | face
  | ignored
  | unknown
deriving DecidableEq, Repr

/-- `tokenize` (objloader.cpp): `v`, `vn`, `vt`, `f`, the ignored structural
tokens `mtllib` / `o` / `usemtl` / `s`, and everything else unknown. -/
def tokenize (t : List Char) : Token :=
  if t = toL "v" then .vertex
  else if t = toL "vn" then .normal
  else if t = toL "vt" then .uv
  else if t = toL "f" then .face
  else if t = toL "mtllib" || t = toL "o" || t = toL "usemtl" || t = toL "s" then .ignored
  else .unknown

/-- `line.substr(0, line.find(' '))`: the leading token of a line (the whole
line when it contains no space, since `substr(0, npos)` clamps). -/
def lineTokenStr (line : List Char) : List Char :=
  match findSep ' ' line with
  | none => line
  | some i => line.take i

/-- `line.substr(line.find(' ') + 1)`: the remainder after the leading
token.  With no space, `npos + 1` wraps to `0`, so the remainder is the
whole line again. -/
def lineRemainder (line : List Char) : List Char :=
  match findSep ' ' line with
  | none => line
  | some i => line.drop (i + 1)

/-- The loop body of `loadObjFile` (objloader.cpp) for one line: skip empty
lines, lines starting with `#`, ignored tokens and unknown tokens (the
latter after logging); otherwise strip the token and decode the remainder,
appending the record to the corresponding table. -/
def processLine (m : Model) (line : List Char) : Except ObjError Model :=
  if line = [] then .ok m
  else if line.headD ' ' = '#' then .ok m
  else
    let tokenStr := lineTokenStr line
    let remainder := lineRemainder line
    match tokenize tokenStr with
    | .ignored => .ok m
    | .unknown => .ok m
    | .vertex =>
      match readPosition remainder with
      | .error e => .error e
      | .ok p => .ok ⟨m.positions ++ [p], m.normals, m.uvs, m.faces⟩
    | .normal =>
      match readNormal remainder with
      | .error e => .error e
      | .ok n => .ok ⟨m.positions, m.normals ++ [n], m.uvs, m.faces⟩
    | .uv =>
      match readUV remainder with
      | .error e => .error e
      | .ok t => .ok ⟨m.positions, m.normals, m.uvs ++ [t], m.faces⟩
    | .face =>
      match readFace remainder with
      | .error e => .error e
      | .ok f => .ok ⟨m.positions, m.normals, m.uvs, m.faces ++ [f]⟩

/-- The model with all four tables empty. -/
def emptyModel : Model := ⟨[], [], [], []⟩

/-- The `getline` loop of `loadObjFile`, starting from a given model. -/
def parseLinesFrom (m : Model) : List (List Char) → Except ObjError Model
  | [] => .ok m
  | l :: ls =>
    match processLine m l with
    | .error e => .error e
    | .ok m2 => parseLinesFrom m2 ls

/-- `loadObjFile` (objloader.cpp) on an already-opened stream, given as its
list of lines. -/
def parseLines (ls : List (List Char)) : Except ObjError Model :=
  parseLinesFrom emptyModel ls

/-- The `Vertex` output unit of the mesh builder (object.cpp): position,
normal (default `(0,0,1)`), texture coordinate (default `(0,0)`). -/
structure Vertex where
  x : FVal
  y : FVal
  z : FVal
  nx : FVal
  ny : FVal
  nz : FVal
  u : FVal
  v : FVal
deriving DecidableEq, Repr

/-- The `makeVertex` lambda in `loadObj` (object.cpp): unchecked
`operator[]` lookups into the three tables; `none` models the undefined
out-of-bounds access.  The normal defaults to `(0,0,1)` and the texture
coordinate to `(0,0)` when the corner carries no reference. -/
def makeVertex (m : Model) (ix : Indices) : Option Vertex :=
  match m.positions[ix.vertex]? with
  | none => none
  | some p =>
    let nrm : Option (FVal × FVal × FVal) :=
      match ix.normal with
      | none => some (⟨0, 0⟩, ⟨0, 0⟩, ⟨1, 0⟩)
      | some ni => (m.normals[ni]?).map (fun n => (n.nx, n.ny, n.nz))
    let uvq : Option (FVal × FVal) :=
      match ix.uv with
      | none => some (⟨0, 0⟩, ⟨0, 0⟩)
      | some ui => (m.uvs[ui]?).map (fun t => (t.u, t.v))
    match nrm, uvq with
    | some (a, b, c), some (s, t) => some ⟨p.x, p.y, p.z, a, b, c, s, t⟩
    | _, _ => none

/-- The per-face vertex emission of `loadObj` (object.cpp): corners 0, 1, 2,
and — when a fourth corner is present — additionally 0, 2, 3. -/
def faceVertices (m : Model) (f : Face) : Option (List Vertex) :=
  match makeVertex m f.i0, makeVertex m f.i1, makeVertex m f.i2 with
  | some v0, some v1, some v2 =>
    match f.i3 with
    | none => some [v0, v1, v2]
    | some j3 =>
      match makeVertex m j3 with
      | some v3 => some [v0, v1, v2, v0, v2, v3]
      | none => none
  | _, _, _ => none

/-- The face loop of `loadObj` (object.cpp) over a list of faces. -/
def buildVerticesAux (m : Model) : List Face → Option (List Vertex)
  | [] => some []
  | f :: fs =>
    match faceVertices m f, buildVerticesAux m fs with
    | some vs, some rest => some (vs ++ rest)
    | _, _ => none

/-- The vertex buffer built by `loadObj` (object.cpp) from a parsed model. -/
def buildVertices (m : Model) : Option (List Vertex) :=
  buildVerticesAux m m.faces

/-- `std::numeric_limits<float>::max()` as an exact scaled decimal:
`(2 ^ 24 - 1) * 2 ^ 104`. -/
def fltMax : FVal := ⟨(2 ^ 24 - 1) * 2 ^ 104, 0⟩

/-- `-std::numeric_limits<float>::max()`. -/
def fltLowest : FVal := ⟨-((2 ^ 24 - 1) * 2 ^ 104), 0⟩

/-- One corner tracked by the diagnostic scan: its `found` flag and current
candidate vertex. -/
structure ScanCorner where
  found : Bool
  vert : Vertex
deriving DecidableEq, Repr

/-- The four corner trackers of the diagnostic scan in `loadObj`
(object.cpp). -/
structure ScanState where
  c00 : ScanCorner
  c01 : ScanCorner
  c10 : ScanCorner
  c11 : ScanCorner
deriving DecidableEq, Repr

/-- Initial scan state: `found` flags false, sentinel texture coordinates
`±FLT_MAX` as in the aggregate initializers of `v00` … `v11`. -/
def scanInit : ScanState :=
  ⟨⟨false, ⟨⟨0,0⟩, ⟨0,0⟩, ⟨0,0⟩, ⟨0,0⟩, ⟨0,0⟩, ⟨0,0⟩, fltMax, fltMax⟩⟩,
   ⟨false, ⟨⟨0,0⟩, ⟨0,0⟩, ⟨0,0⟩, ⟨0,0⟩, ⟨0,0⟩, ⟨0,0⟩, fltMax, fltLowest⟩⟩,
   ⟨false, ⟨⟨0,0⟩, ⟨0,0⟩, ⟨0,0⟩, ⟨0,0⟩, ⟨0,0⟩, ⟨0,0⟩, fltLowest, fltMax⟩⟩,
   ⟨false, ⟨⟨0,0⟩, ⟨0,0⟩, ⟨0,0⟩, ⟨0,0⟩, ⟨0,0⟩, ⟨0,0⟩, fltLowest, fltLowest⟩⟩⟩

/-- One iteration of the diagnostic loop: each of the four corners is
updated independently when the vertex strictly improves both of its stored
coordinates. -/
def scanStep (st : ScanState) (vx : Vertex) : ScanState :=
  ⟨if vx.u.blt st.c00.vert.u && vx.v.blt st.c00.vert.v then ⟨true, vx⟩ else st.c00,
   if vx.u.blt st.c01.vert.u && st.c01.vert.v.blt vx.v then ⟨true, vx⟩ else st.c01,
   if st.c10.vert.u.blt vx.u && vx.v.blt st.c10.vert.v then ⟨true, vx⟩ else st.c10,
   if st.c11.vert.u.blt vx.u && st.c11.vert.v.blt vx.v then ⟨true, vx⟩ else st.c11⟩

/-- The corner-vertex diagnostic scan of `loadObj` (object.cpp): a single
fold over the emitted vertex sequence. -/
def cornerScan (vs : List Vertex) : ScanState :=
  vs.foldl scanStep scanInit

/-- `loadObj` (object.cpp) after parsing, without the OpenGL upload: builds
the vertex buffer and, when `printCornerVertices` is set, runs the
diagnostic scan.  The C++ function only logs the scan result (success or
per-corner failure flags); the model returns the scan state in place of the
log so that its effect — and its absence on the buffer — can be stated. -/
def loadObj (m : Model) (printCornerVertices : Bool) :
    Option (List Vertex × Option ScanState) :=
  match buildVertices m with
  | none => none
  | some vs =>
    if printCornerVertices then some (vs, some (cornerScan vs))
    else some (vs, none)

/-- One optional index is out of range for a table of length `len`. -/
def idxOOB (len : Nat) : Option Nat → Bool
  | none => false
  | some i => decide (len ≤ i)

/-- Some index of a corner is out of range for its target table. -/
def cornerOOB (m : Model) (ix : Indices) : Bool :=
  decide (m.positions.length ≤ ix.vertex) ||
    idxOOB m.normals.length ix.normal || idxOOB m.uvs.length ix.uv

/-- Some corner of a face carries an out-of-range index. -/
def faceOOB (m : Model) (f : Face) : Bool :=
  cornerOOB m f.i0 || cornerOOB m f.i1 || cornerOOB m f.i2 ||
    (match f.i3 with
     | none => false
     | some j => cornerOOB m j)

/- Concrete inputs used by the witness theorems below. -/

/-- A corner referencing position 0 with no uv / normal reference. -/
def cornerZ : Indices := ⟨0, none, none⟩

/-- A triangle face on `cornerZ`. -/
def triZ : Face := ⟨cornerZ, cornerZ, cornerZ, none⟩

/-- A quad face on `cornerZ`. -/
def quadZ : Face := ⟨cornerZ, cornerZ, cornerZ, some cornerZ⟩

/-- The origin position. -/
def posZ : Position := ⟨⟨0, 0⟩, ⟨0, 0⟩, ⟨0, 0⟩⟩

/-- The vertex produced from `posZ` with default normal and uv. -/
def vtxZ : Vertex := ⟨⟨0, 0⟩, ⟨0, 0⟩, ⟨0, 0⟩, ⟨0, 0⟩, ⟨0, 0⟩, ⟨1, 0⟩, ⟨0, 0⟩, ⟨0, 0⟩⟩

/-- One position, one triangle face and one quad face. -/
def modelC5 : Model := ⟨[posZ], [], [], [triZ, quadZ]⟩

/-- Four positions with x-coordinates 1, 2, 3, 4. -/
def modelC6 : Model :=
  ⟨[⟨⟨1, 0⟩, ⟨0, 0⟩, ⟨0, 0⟩⟩, ⟨⟨2, 0⟩, ⟨0, 0⟩, ⟨0, 0⟩⟩,
    ⟨⟨3, 0⟩, ⟨0, 0⟩, ⟨0, 0⟩⟩, ⟨⟨4, 0⟩, ⟨0, 0⟩, ⟨0, 0⟩⟩], [], [], []⟩

/-- The quad `f 1 2 3 4` after parsing (0-based corners 0, 1, 2, 3). -/
def quadC6 : Face := ⟨⟨0, none, none⟩, ⟨1, none, none⟩, ⟨2, none, none⟩, some ⟨3, none, none⟩⟩

/-- The vertex with position `(n, 0, 0)` and default normal and uv. -/
def vtxC6 (n : Int) : Vertex :=
  ⟨⟨n, 0⟩, ⟨0, 0⟩, ⟨0, 0⟩, ⟨0, 0⟩, ⟨0, 0⟩, ⟨1, 0⟩, ⟨0, 0⟩, ⟨0, 0⟩⟩

/-- One position `(5, 6, 7)`, one normal `(1, 2, 3)` and one texture
coordinate `(4, 8)`. -/
def modelC7 : Model :=
  ⟨[⟨⟨5, 0⟩, ⟨6, 0⟩, ⟨7, 0⟩⟩], [⟨⟨1, 0⟩, ⟨2, 0⟩, ⟨3, 0⟩⟩], [⟨⟨4, 0⟩, ⟨8, 0⟩⟩], []⟩

/- ---------------------------------------------------------------------- -/
/- Helper lemmas                                                           -/
/- ---------------------------------------------------------------------- -/

theorem findSep_eq_none_iff {c : Char} : ∀ {s : List Char}, findSep c s = none ↔ c ∉ s
  | [] => by simp [findSep]
  | a :: rest => by
    by_cases hac : a = c
    · simp [findSep, hac]
    · simp only [findSep, if_neg hac, Option.map_eq_none', List.mem_cons]
      rw [findSep_eq_none_iff (s := rest)]
      constructor
      · intro h hc
        rcases hc with hc | hc
        · exact hac hc.symm
        · exact h hc
      · intro h hc
        exact h (Or.inr hc)

theorem findSep_append_cons (c : Char) (x r : List Char) (h : c ∉ x) :
    findSep c (x ++ c :: r) = some x.length := by
  induction x with
  | nil => simp [findSep]
  | cons a xs ih =>
    have hac : ¬ a = c := fun hc => h (by simp [hc])
    have hx : c ∉ xs := fun hc => h (by simp [hc])
    simp [findSep, hac, ih hx]

theorem drop_append_cons (x r : List Char) (c : Char) :
    (x ++ c :: r).drop (x.length + 1) = r := by
  have : x ++ c :: r = (x ++ [c]) ++ r := by simp
  rw [this]
  have hl : (x ++ [c]).length = x.length + 1 := by simp
  rw [← hl, List.drop_left]

theorem parseLinesFrom_append (m : Model) (as bs : List (List Char)) :
    parseLinesFrom m (as ++ bs) =
      match parseLinesFrom m as with
      | .ok m2 => parseLinesFrom m2 bs
      | .error e => .error e := by
  induction as generalizing m with
  | nil => simp [parseLinesFrom]
  | cons l ls ih =>
    simp only [List.cons_append, parseLinesFrom]
    cases processLine m l with
    | error e => rfl
    | ok m2 => exact ih m2

theorem eat_error_msg (v : List Char) (e : ObjError) (h : eat v = .error e) :
    e = .parseError faceErrMsg := by
  unfold eat at h
  split at h <;> split at h <;> simp_all

theorem readIndices_error_msg (v : List Char) (e : ObjError)
    (h : readIndices v = .error e) : e = .parseError faceErrMsg := by
  unfold readIndices at h
  split at h
  · rename_i e1 he1
    cases h
    exact eat_error_msg _ _ he1
  · rename_i r0 v1 done1 he1
    split at h
    · cases h
    · split at h
      · rename_i e2 he2
        cases h
        exact eat_error_msg _ _ he2
      · rename_i r1 v2 done2 he2
        split at h
        · cases h
        · split at h
          · rename_i e3 he3
            cases h
            exact eat_error_msg _ _ he3
          · cases h

theorem readFace_error_msg (line : List Char) (e : ObjError)
    (h : readFace line = .error e) : e = .parseError faceErrMsg := by
  unfold readFace at h
  rcases hf : fields4 line with ⟨s0, s1, s2, s3, h4⟩
  rw [hf] at h
  dsimp only at h
  cases h0 : readIndices s0 with
  | error e0 =>
    rw [h0] at h
    injection h with h
    rw [← h]
    exact readIndices_error_msg _ _ h0
  | ok i0 =>
    rw [h0] at h
    cases h1 : readIndices s1 with
    | error e1 =>
      rw [h1] at h
      injection h with h
      rw [← h]
      exact readIndices_error_msg _ _ h1
    | ok i1 =>
      rw [h1] at h
      cases h2 : readIndices s2 with
      | error e2 =>
        rw [h2] at h
        injection h with h
        rw [← h]
        exact readIndices_error_msg _ _ h2
      | ok i2 =>
        rw [h2] at h
        dsimp only at h
        by_cases hh : h4 = true
        · rw [if_pos hh] at h
          cases h3 : readIndices s3 with
          | error e3 =>
            rw [h3] at h
            injection h with h
            rw [← h]
            exact readIndices_error_msg _ _ h3
          | ok i3 =>
            rw [h3] at h
            exact absurd h (by simp)
        · rw [if_neg hh] at h
          exact absurd h (by simp)

theorem readPosition_error_msg (line : List Char) (e : ObjError)
    (h : readPosition line = .error e) : e = .parseError (lineErrMsg line) := by
  unfold readPosition at h
  split at h <;> simp_all

theorem fromCharsU32_lt (s : List Char) (a : Nat) (h : fromCharsU32 s = some a) :
    a < 2 ^ 32 := by
  simp only [fromCharsU32] at h
  split at h
  · cases h
  · split at h
    · cases h
      assumption
    · cases h

theorem eat_no_sep (s : List Char) (a : Nat) (hs : '/' ∉ s)
    (hp : fromCharsU32 s = some a) : eat s = .ok (a, s, true) := by
  unfold eat
  rw [findSep_eq_none_iff.mpr hs, hp]

theorem eat_with_sep (s t : List Char) (a : Nat) (hs : '/' ∉ s)
    (hp : fromCharsU32 s = some a) : eat (s ++ '/' :: t) = .ok (a, t, false) := by
  unfold eat
  rw [findSep_append_cons '/' s t hs]
  dsimp only
  rw [List.take_left, hp]
  dsimp only
  rw [drop_append_cons]

theorem processLine_face (m : Model) (rem : List Char) :
    processLine m ('f' :: ' ' :: rem) =
      match readFace rem with
      | .error e => .error e
      | .ok f => .ok ⟨m.positions, m.normals, m.uvs, m.faces ++ [f]⟩ := rfl

theorem processLine_vertex (m : Model) (rem : List Char) :
    processLine m ('v' :: ' ' :: rem) =
      match readPosition rem with
      | .error e => .error e
      | .ok p => .ok ⟨m.positions ++ [p], m.normals, m.uvs, m.faces⟩ := rfl

theorem processLine_skip (m : Model) (line : List Char)
    (h : line = [] ∨ line.headD ' ' = '#' ∨ tokenize (lineTokenStr line) = .unknown) :
    processLine m line = .ok m := by
  by_cases h1 : line = []
  · unfold processLine
    rw [if_pos h1]
  · by_cases h2 : line.headD ' ' = '#'
    · unfold processLine
      rw [if_neg h1, if_pos h2]
    · rcases h with h | h | h
      · exact absurd h h1
      · exact absurd h h2
      · unfold processLine
        rw [if_neg h1, if_neg h2]
        dsimp only
        rw [h]

theorem drop_two_seps (x y z : List Char) (c : Char) :
    (x ++ c :: (y ++ c :: z)).drop (x.length + 1 + y.length + 1) = z := by
  have h : x ++ c :: (y ++ c :: z) = (x ++ c :: y ++ [c]) ++ z := by simp
  have hl : (x ++ c :: y ++ [c]).length = x.length + 1 + y.length + 1 := by
    simp
    omega
  rw [h, List.drop_left' hl]

theorem fields3_of (x y z : List Char) (hx : ' ' ∉ x) (hy : ' ' ∉ y) :
    fields3 (x ++ ' ' :: (y ++ ' ' :: z)) = (x, y, z) := by
  unfold fields3
  rw [findSep_append_cons ' ' x (y ++ ' ' :: z) hx]
  dsimp only
  rw [drop_append_cons]
  rw [findSep_append_cons ' ' y z hy]
  dsimp only
  rw [List.take_left, List.take_left, drop_two_seps]

theorem getElem?_ne_none {α : Type} {l : List α} {i : Nat} {v : α}
    (h : l[i]? = some v) : ¬ l.length ≤ i := by
  intro hle
  rw [List.getElem?_eq_none_iff.mpr hle] at h
  cases h

theorem makeVertex_none_iff (m : Model) (ix : Indices) :
    makeVertex m ix = none ↔ cornerOOB m ix = true := by
  cases hp : m.positions[ix.vertex]? with
  | none =>
    have hb : m.positions.length ≤ ix.vertex := List.getElem?_eq_none_iff.mp hp
    simp [makeVertex, cornerOOB, hp, hb]
  | some p =>
    have hb := getElem?_ne_none hp
    cases hn : ix.normal with
    | none =>
      cases hu : ix.uv with
      | none => simp [makeVertex, cornerOOB, idxOOB, hp, hn, hu, hb]
      | some ui =>
        cases hut : m.uvs[ui]? with
        | none =>
          have hub : m.uvs.length ≤ ui := List.getElem?_eq_none_iff.mp hut
          simp [makeVertex, cornerOOB, idxOOB, hp, hn, hu, hut, hb, hub]
        | some t =>
          have hub := getElem?_ne_none hut
          simp [makeVertex, cornerOOB, idxOOB, hp, hn, hu, hut, hb, hub]
    | some ni =>
      cases hnt : m.normals[ni]? with
      | none =>
        have hnb : m.normals.length ≤ ni := List.getElem?_eq_none_iff.mp hnt
        cases hu : ix.uv with
        | none => simp [makeVertex, cornerOOB, idxOOB, hp, hn, hu, hnt, hb, hnb]
        | some ui =>
          cases hut : m.uvs[ui]? with
          | none =>
            have hub : m.uvs.length ≤ ui := List.getElem?_eq_none_iff.mp hut
            simp [makeVertex, cornerOOB, idxOOB, hp, hn, hu, hnt, hut, hb, hnb, hub]
          | some t =>
            have hub := getElem?_ne_none hut
            simp [makeVertex, cornerOOB, idxOOB, hp, hn, hu, hnt, hut, hb, hnb, hub]
      | some nv =>
        have hnb := getElem?_ne_none hnt
        cases hu : ix.uv with
        | none => simp [makeVertex, cornerOOB, idxOOB, hp, hn, hu, hnt, hb, hnb]
        | some ui =>
          cases hut : m.uvs[ui]? with
          | none =>
            have hub : m.uvs.length ≤ ui := List.getElem?_eq_none_iff.mp hut
            simp [makeVertex, cornerOOB, idxOOB, hp, hn, hu, hnt, hut, hb, hnb, hub]
          | some t =>
            have hub := getElem?_ne_none hut
            simp [makeVertex, cornerOOB, idxOOB, hp, hn, hu, hnt, hut, hb, hnb, hub]

theorem makeVertex_some_cornerOOB (m : Model) (ix : Indices) (v : Vertex)
    (h : makeVertex m ix = some v) : cornerOOB m ix = false := by
  cases hc : cornerOOB m ix with
  | false => rfl
  | true =>
    rw [(makeVertex_none_iff m ix).mpr hc] at h
    cases h

theorem makeVertex_fields (m : Model) (ix : Indices) (v : Vertex)
    (h : makeVertex m ix = some v) :
    m.positions[ix.vertex]? = some ⟨v.x, v.y, v.z⟩ ∧
    (ix.normal = none → v.nx = ⟨0, 0⟩ ∧ v.ny = ⟨0, 0⟩ ∧ v.nz = ⟨1, 0⟩) ∧
    (ix.uv = none → v.u = ⟨0, 0⟩ ∧ v.v = ⟨0, 0⟩) := by
  cases hp : m.positions[ix.vertex]? with
  | none =>
    have hmv : makeVertex m ix = none := by simp [makeVertex, hp]
    rw [hmv] at h
    cases h
  | some p =>
    cases hn : ix.normal with
    | none =>
      cases hu : ix.uv with
      | none =>
        have hmv : makeVertex m ix =
            some ⟨p.x, p.y, p.z, ⟨0, 0⟩, ⟨0, 0⟩, ⟨1, 0⟩, ⟨0, 0⟩, ⟨0, 0⟩⟩ := by
          simp [makeVertex, hp, hn, hu]
        rw [h] at hmv
        injection hmv with h2
        subst h2
        exact ⟨rfl, fun _ => ⟨rfl, rfl, rfl⟩, fun _ => ⟨rfl, rfl⟩⟩
      | some ui =>
        cases hut : m.uvs[ui]? with
        | none =>
          have hmv : makeVertex m ix = none := by simp [makeVertex, hp, hn, hu, hut]
          rw [hmv] at h
          cases h
        | some t =>
          have hmv : makeVertex m ix =
              some ⟨p.x, p.y, p.z, ⟨0, 0⟩, ⟨0, 0⟩, ⟨1, 0⟩, t.u, t.v⟩ := by
            simp [makeVertex, hp, hn, hu, hut]
          rw [h] at hmv
          injection hmv with h2
          subst h2
          exact ⟨rfl, fun _ => ⟨rfl, rfl, rfl⟩, fun hcon => absurd hcon (by simp)⟩
    | some ni =>
      cases hnt : m.normals[ni]? with
      | none =>
        cases hu : ix.uv with
        | none =>
          have hmv : makeVertex m ix = none := by simp [makeVertex, hp, hn, hnt, hu]
          rw [hmv] at h
          cases h
        | some ui =>
          cases hut : m.uvs[ui]? with
          | none =>
            have hmv : makeVertex m ix = none := by
              simp [makeVertex, hp, hn, hnt, hu, hut]
            rw [hmv] at h
            cases h
          | some t =>
            have hmv : makeVertex m ix = none := by
              simp [makeVertex, hp, hn, hnt, hu, hut]
            rw [hmv] at h
            cases h
      | some nv =>
        cases hu : ix.uv with
        | none =>
          have hmv : makeVertex m ix =
              some ⟨p.x, p.y, p.z, nv.nx, nv.ny, nv.nz, ⟨0, 0⟩, ⟨0, 0⟩⟩ := by
            simp [makeVertex, hp, hn, hnt, hu]
          rw [h] at hmv
          injection hmv with h2
          subst h2
          exact ⟨rfl, fun hcon => absurd hcon (by simp), fun _ => ⟨rfl, rfl⟩⟩
        | some ui =>
          cases hut : m.uvs[ui]? with
          | none =>
            have hmv : makeVertex m ix = none := by
              simp [makeVertex, hp, hn, hnt, hu, hut]
            rw [hmv] at h
            cases h
          | some t =>
            have hmv : makeVertex m ix =
                some ⟨p.x, p.y, p.z, nv.nx, nv.ny, nv.nz, t.u, t.v⟩ := by
              simp [makeVertex, hp, hn, hnt, hu, hut]
            rw [h] at hmv
            injection hmv with h2
            subst h2
            exact ⟨rfl, fun hcon => absurd hcon (by simp),
              fun hcon => absurd hcon (by simp)⟩

theorem parseLinesFrom_cons (m : Model) (l : List Char) (ls : List (List Char)) :
    parseLinesFrom m (l :: ls) =
      match processLine m l with
      | .error e => .error e
      | .ok m2 => parseLinesFrom m2 ls := rfl

theorem faceVertices_none_iff (m : Model) (f : Face) :
    faceVertices m f = none ↔ faceOOB m f = true := by
  unfold faceVertices faceOOB
  cases h0 : makeVertex m f.i0 with
  | none =>
    have c0 := (makeVertex_none_iff m f.i0).mp h0
    simp [c0]
  | some v0 =>
    have c0 := makeVertex_some_cornerOOB m f.i0 v0 h0
    cases h1 : makeVertex m f.i1 with
    | none =>
      have c1 := (makeVertex_none_iff m f.i1).mp h1
      simp [c0, c1]
    | some v1 =>
      have c1 := makeVertex_some_cornerOOB m f.i1 v1 h1
      cases h2 : makeVertex m f.i2 with
      | none =>
        have c2 := (makeVertex_none_iff m f.i2).mp h2
        simp [c0, c1, c2]
      | some v2 =>
        have c2 := makeVertex_some_cornerOOB m f.i2 v2 h2
        cases h3 : f.i3 with
        | none => simp [c0, c1, c2, h3]
        | some j3 =>
          cases hj : makeVertex m j3 with
          | none =>
            have cj := (makeVertex_none_iff m j3).mp hj
            simp [c0, c1, c2, h3, hj, cj]
          | some v3 =>
            have cj := makeVertex_some_cornerOOB m j3 v3 hj
            simp [c0, c1, c2, h3, hj, cj]

theorem buildVerticesAux_none_iff (m : Model) (fs : List Face) :
    buildVerticesAux m fs = none ↔ ∃ f ∈ fs, faceOOB m f = true := by
  induction fs with
  | nil => simp [buildVerticesAux]
  | cons f rest ih =>
    unfold buildVerticesAux
    cases hf : faceVertices m f with
    | none =>
      have hfo := (faceVertices_none_iff m f).mp hf
      constructor
      · intro _
        exact ⟨f, List.mem_cons_self f rest, hfo⟩
      · intro _
        rfl
    | some vs =>
      have hb : faceOOB m f = false := by
        cases hc : faceOOB m f with
        | false => rfl
        | true =>
          rw [(faceVertices_none_iff m f).mpr hc] at hf
          cases hf
      cases hr : buildVerticesAux m rest with
      | none =>
        rw [hr] at ih
        constructor
        · intro _
          obtain ⟨g, hg, hgo⟩ := ih.mp rfl
          exact ⟨g, List.mem_cons_of_mem f hg, hgo⟩
        · intro _
          rfl
      | some done =>
        rw [hr] at ih
        constructor
        · intro hcontra
          exact absurd hcontra (by simp)
        · rintro ⟨g, hg, hgo⟩
          rcases List.mem_cons.mp hg with rfl | hg2
          · rw [hgo] at hb
            cases hb
          · cases ih.mpr ⟨g, hg2, hgo⟩

theorem faceVertices_length (m : Model) (f : Face) (vs : List Vertex)
    (h : faceVertices m f = some vs) :
    vs.length = if f.i3.isSome then 6 else 3 := by
  unfold faceVertices at h
  cases h3 : f.i3 with
  | none =>
    rw [h3] at h
    split at h
    · cases h
      simp [h3]
    · cases h
  | some j3 =>
    rw [h3] at h
    split at h
    · dsimp only at h
      split at h
      · cases h
        simp [h3]
      · cases h
    · cases h

theorem buildVerticesAux_length (m : Model) (fs : List Face) (vs : List Vertex)
    (h : buildVerticesAux m fs = some vs) :
    vs.length = 3 * (fs.filter (fun f => f.i3.isNone)).length
      + 6 * (fs.filter (fun f => f.i3.isSome)).length := by
  induction fs generalizing vs with
  | nil =>
    unfold buildVerticesAux at h
    cases h
    simp
  | cons f rest ih =>
    unfold buildVerticesAux at h
    cases hf : faceVertices m f with
    | none =>
      rw [hf] at h
      cases h
    | some fvs =>
      rw [hf] at h
      cases hr : buildVerticesAux m rest with
      | none =>
        rw [hr] at h
        cases h
      | some rvs =>
        rw [hr] at h
        cases h
        have hl := faceVertices_length m f fvs hf
        have hrv := ih rvs hr
        rw [List.length_append, hl, hrv]
        cases h3 : f.i3 with
        | none =>
          simp only [List.filter_cons, h3, Option.isNone_none, Option.isSome_none]
          simp
          omega
        | some j =>
          simp only [List.filter_cons, h3, Option.isNone_some, Option.isSome_some]
          simp
          omega

/- ---------------------------------------------------------------------- -/
/- Claims                                                                  -/
/- ---------------------------------------------------------------------- -/

/-- C1 counterexample: the claim says a corner index written as a negative
number or as `0` raises `IndexOutOfRange` when the mesh is built.  In fact a
negative index (`f -1 1 1`) already aborts *parsing* with the parse error
`Error loading face` — no Model is ever produced, so the build cannot raise
anything — and an index written as `0` parses successfully, wrapping by
32-bit unsigned underflow to `4294967295`; building that model performs an
unchecked out-of-bounds table access (no exception), modelled as `none`. -/
theorem claim_C1_counterexample :
    parseLines [toL "f -1 1 1"] = .error (.parseError faceErrMsg) ∧
    parseLines [toL "v 0 0 0", toL "f 0 1 1"] =
      .ok ⟨[⟨⟨0, 0⟩, ⟨0, 0⟩, ⟨0, 0⟩⟩], [], [],
        [⟨⟨4294967295, none, none⟩, ⟨0, none, none⟩, ⟨0, none, none⟩, none⟩]⟩ ∧
    buildVertices ⟨[⟨⟨0, 0⟩, ⟨0, 0⟩, ⟨0, 0⟩⟩], [], [],
        [⟨⟨4294967295, none, none⟩, ⟨0, none, none⟩, ⟨0, none, none⟩, none⟩]⟩ = none :=
  ⟨by decide, by decide, by decide⟩

/-- C1 (amended): building the mesh fails — the unchecked `operator[]`
access has no defined result, modelled as `none` — exactly when some face
corner's vertex, texture-coordinate, or normal index (as stored after the
parser's 0-basing) falls outside the bounds of its target table.  No
`IndexOutOfRange` error is raised: a negative corner index is rejected at
parse time with `ParseError`, and an index written as `0` wraps to
`2 ^ 32 - 1` during parsing and is out of bounds here. -/
theorem claim_C1_amended (m : Model) :
    buildVertices m = none ↔ ∃ f ∈ m.faces, faceOOB m f = true :=
  buildVerticesAux_none_iff m m.faces

/-- C2 counterexample: the claim says a corner specification `a//c` parses
successfully with the texture-coordinate index treated as absent.  In fact
the face line `f 1//1 2//1 3//1` aborts parsing: the empty second field is
handed to the unsigned-integer parser, which fails, and `readFace` throws
`Error loading face`. -/
theorem claim_C2_counterexample :
    parseLines [toL "f 1//1 2//1 3//1"] = .error (.parseError faceErrMsg) := by decide

/-- C2 (amended): a corner specification of the form `a//c` (second field
present but empty) is a parse failure, not a successful parse: after the
first field is consumed, the empty string before the second `/` fails
`from_chars`, and `readIndices` throws `Error loading face`. -/
theorem claim_C2_amended (s t : List Char) (a : Nat)
    (hs : '/' ∉ s) (hp : fromCharsU32 s = some a) :
    readIndices (s ++ '/' :: '/' :: t) = .error (.parseError faceErrMsg) := by
  unfold readIndices
  rw [eat_with_sep s ('/' :: t) a hs hp]
  dsimp only
  have he : eat ('/' :: t) = .error (.parseError faceErrMsg) := by
    unfold eat
    simp [findSep, fromCharsU32]
  rw [he]
  rfl

/-- C2 witness: `claim_C2_amended` applied to the corner specification
`1//1`. -/
theorem claim_C2_witness :
    readIndices (toL "1" ++ '/' :: '/' :: toL "1") = .error (.parseError faceErrMsg) :=
  claim_C2_amended (toL "1") (toL "1") 1 (by decide) (by decide)

/-- C3 counterexample: the claim says a `v` record fails with `ParseError`
unless the remainder is exactly three space-separated floats, and that
unconsumed trailing characters (for example a fourth number) are a parse
failure.  In fact `v 1 2 3 4` parses successfully to the position
`(1, 2, 3)`: the call sites check only the `from_chars` error code and never
the end pointer, so the trailing ` 4` in the third field is silently
ignored. -/
theorem claim_C3_counterexample :
    parseLines [toL "v 1 2 3 4"] =
      .ok ⟨[⟨⟨1, 0⟩, ⟨2, 0⟩, ⟨3, 0⟩⟩], [], [], []⟩ := by decide

/-- C3 (amended): for a `v` record whose remainder splits at the first two
spaces into fields `x`, `y` and a third field, parsing succeeds — with any
unconsumed trailing characters of the third field silently ignored — as
soon as each field has a parseable leading float, and fails with
`ParseError` naming the remainder when the third field has none.  (With
fewer than two spaces the `size_t`/`npos` wraparound re-reads other parts of
the line, so "exactly three floats" is not checked in any form.) -/
theorem claim_C3_amended (x y z : List Char) (qx qy qz : FVal)
    (hx : ' ' ∉ x) (hy : ' ' ∉ y)
    (px : fromCharsFloat x = some qx) (py : fromCharsFloat y = some qy) :
    (fromCharsFloat z = some qz →
      readPosition (x ++ ' ' :: (y ++ ' ' :: z)) = .ok ⟨qx, qy, qz⟩) ∧
    (fromCharsFloat z = none →
      readPosition (x ++ ' ' :: (y ++ ' ' :: z)) =
        .error (.parseError (lineErrMsg (x ++ ' ' :: (y ++ ' ' :: z))))) := by
  have hf := fields3_of x y z hx hy
  constructor
  · intro pz
    unfold readPosition
    rw [hf]
    dsimp only
    rw [px, py, pz]
  · intro pz
    unfold readPosition
    rw [hf]
    dsimp only
    rw [px, py, pz]

/-- C3 witness: `claim_C3_amended` applied to the remainder `1 2 3 4`,
whose third field `3 4` carries the ignored trailing text ` 4`. -/
theorem claim_C3_witness :
    readPosition (toL "1" ++ ' ' :: (toL "2" ++ ' ' :: toL "3 4")) =
      .ok ⟨⟨1, 0⟩, ⟨2, 0⟩, ⟨3, 0⟩⟩ :=
  (claim_C3_amended (toL "1") (toL "2") (toL "3 4") ⟨1, 0⟩ ⟨2, 0⟩ ⟨3, 0⟩
    (by decide) (by decide) (by decide) (by decide)).1 (by decide)

/-- C4 counterexample: the claim says every malformed numeric field —
including a malformed corner specification on a face line — aborts with a
`ParseError` whose message includes the offending line's text.  The face
line `f x 1 1` does abort, but its error message is the fixed string
`Error loading face`, which does not contain the line's text (the line is
not an infix of the message). -/
theorem claim_C4_counterexample :
    parseLines [toL "f x 1 1"] = .error (.parseError faceErrMsg) ∧
    ¬ toL "f x 1 1" <:+: faceErrMsg := ⟨by decide, by decide⟩

/-- C4 (amended): a recognized geometry record with a malformed numeric
field aborts the whole parse with `ParseError` and no Model is returned;
for position records the message is `Error loading line: ` followed by the
line's remainder after the leading token, but for face records the message
is the fixed text `Error loading face` without the line's text. -/
theorem claim_C4_amended (pre post : List (List Char)) (rem : List Char) (m : Model)
    (hpre : parseLines pre = .ok m) :
    (∀ e, readFace rem = .error e →
      e = .parseError faceErrMsg ∧
      parseLines (pre ++ ('f' :: ' ' :: rem) :: post) = .error e) ∧
    (∀ e, readPosition rem = .error e →
      e = .parseError (lineErrMsg rem) ∧
      parseLines (pre ++ ('v' :: ' ' :: rem) :: post) = .error e) := by
  constructor
  · intro e he
    refine ⟨readFace_error_msg rem e he, ?_⟩
    unfold parseLines at hpre ⊢
    rw [parseLinesFrom_append, hpre]
    dsimp only
    rw [parseLinesFrom_cons, processLine_face, he]
  · intro e he
    refine ⟨readPosition_error_msg rem e he, ?_⟩
    unfold parseLines at hpre ⊢
    rw [parseLinesFrom_append, hpre]
    dsimp only
    rw [parseLinesFrom_cons, processLine_vertex, he]

/-- C4 witness: `claim_C4_amended` applied to the malformed remainder
`x 1 1` as a face record and as a position record, in a one-line stream. -/
theorem claim_C4_witness :
    (ObjError.parseError faceErrMsg = .parseError faceErrMsg ∧
      parseLines ([] ++ ('f' :: ' ' :: toL "x 1 1") :: []) =
        .error (.parseError faceErrMsg)) ∧
    (ObjError.parseError (lineErrMsg (toL "x 1 1")) =
        .parseError (lineErrMsg (toL "x 1 1")) ∧
      parseLines ([] ++ ('v' :: ' ' :: toL "x 1 1") :: []) =
        .error (.parseError (lineErrMsg (toL "x 1 1")))) :=
  ⟨(claim_C4_amended [] [] (toL "x 1 1") emptyModel (by decide)).1
      (.parseError faceErrMsg) (by decide),
   (claim_C4_amended [] [] (toL "x 1 1") emptyModel (by decide)).2
      (.parseError (lineErrMsg (toL "x 1 1"))) (by decide)⟩

/-- C5: for every parsed Model whose build succeeds, the vertex buffer
contains exactly 3 vertices per three-corner face and 6 per four-corner
face; in particular for triangle-only models the count is 3 times the
number of faces, and for quad-only models 6 times. -/
theorem claim_C5 (m : Model) (vs : List Vertex) (h : buildVertices m = some vs) :
    vs.length = 3 * (m.faces.filter (fun f => f.i3.isNone)).length
      + 6 * (m.faces.filter (fun f => f.i3.isSome)).length :=
  buildVerticesAux_length m m.faces vs h

/-- C5 witness: `claim_C5` on a model with one triangle face and one quad
face, whose build yields 3 + 6 = 9 vertices. -/
theorem claim_C5_witness :
    buildVertices modelC5 =
      some [vtxZ, vtxZ, vtxZ, vtxZ, vtxZ, vtxZ, vtxZ, vtxZ, vtxZ] ∧
    ([vtxZ, vtxZ, vtxZ, vtxZ, vtxZ, vtxZ, vtxZ, vtxZ, vtxZ] : List Vertex).length =
      3 * (modelC5.faces.filter (fun f => f.i3.isNone)).length
        + 6 * (modelC5.faces.filter (fun f => f.i3.isSome)).length :=
  ⟨by decide,
   claim_C5 modelC5 [vtxZ, vtxZ, vtxZ, vtxZ, vtxZ, vtxZ, vtxZ, vtxZ, vtxZ] (by decide)⟩

/-- C6: a three-corner face emits exactly one triangle (corner 0, 1, 2) in
declared order, and a four-corner face emits exactly two triangles as a fan
split from the first corner — (corner 0, 1, 2) then (corner 0, 2, 3) — with
the declared winding preserved verbatim. -/
theorem claim_C6 (m : Model) (f : Face) (v0 v1 v2 : Vertex)
    (h0 : makeVertex m f.i0 = some v0) (h1 : makeVertex m f.i1 = some v1)
    (h2 : makeVertex m f.i2 = some v2) :
    (f.i3 = none → faceVertices m f = some [v0, v1, v2]) ∧
    (∀ j3 v3, f.i3 = some j3 → makeVertex m j3 = some v3 →
      faceVertices m f = some [v0, v1, v2, v0, v2, v3]) := by
  unfold faceVertices
  rw [h0, h1, h2]
  constructor
  · intro h3
    rw [h3]
  · intro j3 v3 h3 hm
    rw [h3]
    dsimp only
    rw [hm]

/-- C6 witness: `claim_C6` on the parsed quad `f 1 2 3 4` over four
positions: two fan triangles in original winding. -/
theorem claim_C6_witness :
    faceVertices modelC6 quadC6 =
      some [vtxC6 1, vtxC6 2, vtxC6 3, vtxC6 1, vtxC6 3, vtxC6 4] :=
  (claim_C6 modelC6 quadC6 (vtxC6 1) (vtxC6 2) (vtxC6 3)
      (by decide) (by decide) (by decide)).2
    ⟨3, none, none⟩ (vtxC6 4) (by decide) (by decide)

/-- C7: for every face corner within table bounds the resolution succeeds,
and every resolved corner — whatever the spelling it was parsed from —
yields a Vertex whose position equals the Position table entry at the
corner's stored index, whose normal is exactly `(0, 0, 1)` when the corner
carries no normal reference, and whose texture coordinate is exactly
`(0, 0)` when it carries no texture-coordinate reference.  A corner written
with 1-based index `a` stores index `a - 1`: the spellings `a`, `a/b` and
`a/b/c` parse to the corners `(a-1, none, none)`, `(a-1, some (b-1), none)`
and `(a-1, some (b-1), some (c-1))` respectively, so the resolved position
is table entry `a - 1`. -/
theorem claim_C7 (m : Model) :
    (∀ ix, cornerOOB m ix = false → (makeVertex m ix).isSome = true) ∧
    (∀ ix v, makeVertex m ix = some v →
      m.positions[ix.vertex]? = some ⟨v.x, v.y, v.z⟩ ∧
      (ix.normal = none → v.nx = ⟨0, 0⟩ ∧ v.ny = ⟨0, 0⟩ ∧ v.nz = ⟨1, 0⟩) ∧
      (ix.uv = none → v.u = ⟨0, 0⟩ ∧ v.v = ⟨0, 0⟩)) ∧
    (∀ s a, '/' ∉ s → fromCharsU32 s = some a → 1 ≤ a →
      readIndices s = .ok ⟨a - 1, none, none⟩) ∧
    (∀ sa sb a b, '/' ∉ sa → '/' ∉ sb →
      fromCharsU32 sa = some a → fromCharsU32 sb = some b → 1 ≤ a → 1 ≤ b →
      readIndices (sa ++ '/' :: sb) = .ok ⟨a - 1, some (b - 1), none⟩) ∧
    (∀ sa sb sc a b c, '/' ∉ sa → '/' ∉ sb → '/' ∉ sc →
      fromCharsU32 sa = some a → fromCharsU32 sb = some b → fromCharsU32 sc = some c →
      1 ≤ a → 1 ≤ b → 1 ≤ c →
      readIndices (sa ++ '/' :: (sb ++ '/' :: sc)) =
        .ok ⟨a - 1, some (b - 1), some (c - 1)⟩) := by
  refine ⟨?_, ?_, ?_, ?_, ?_⟩
  · intro ix hc
    cases hmv : makeVertex m ix with
    | none =>
      rw [(makeVertex_none_iff m ix).mp hmv] at hc
      cases hc
    | some v => rfl
  · intro ix v h
    exact makeVertex_fields m ix v h
  · intro s a hs hp h1
    have ha := fromCharsU32_lt s a hp
    have hd : dec32 a = a - 1 := by
      unfold dec32
      omega
    unfold readIndices
    rw [eat_no_sep s a hs hp]
    dsimp only
    rw [hd]
    rfl
  · intro sa sb a b hsa hsb hpa hpb h1a h1b
    have ha32 := fromCharsU32_lt sa a hpa
    have hb32 := fromCharsU32_lt sb b hpb
    have hda : dec32 a = a - 1 := by
      unfold dec32
      omega
    have hdb : dec32 b = b - 1 := by
      unfold dec32
      omega
    unfold readIndices
    rw [eat_with_sep sa sb a hsa hpa]
    dsimp only
    rw [eat_no_sep sb b hsb hpb]
    dsimp only
    rw [hda, hdb]
    rfl
  · intro sa sb sc a b c hsa hsb hsc hpa hpb hpc h1a h1b h1c
    have ha32 := fromCharsU32_lt sa a hpa
    have hb32 := fromCharsU32_lt sb b hpb
    have hc32 := fromCharsU32_lt sc c hpc
    have hda : dec32 a = a - 1 := by
      unfold dec32
      omega
    have hdb : dec32 b = b - 1 := by
      unfold dec32
      omega
    have hdc : dec32 c = c - 1 := by
      unfold dec32
      omega
    unfold readIndices
    rw [eat_with_sep sa (sb ++ '/' :: sc) a hsa hpa]
    dsimp only
    rw [eat_with_sep sb sc b hsb hpb]
    dsimp only
    rw [eat_no_sep sc c hsc hpc]
    dsimp only
    rw [hda, hdb, hdc]
    rfl

/-- C7 witness: `claim_C7` on a model with one position `(5, 6, 7)`, one
normal and one texture coordinate: an in-bounds corner resolves; a corner
with a uv reference but no normal reference keeps the table position and
the default normal; and the spellings `1`, `3/2` and `4/3/2` parse to the
expected 0-based corners. -/
theorem claim_C7_witness :
    (makeVertex modelC7 ⟨0, some 0, some 0⟩).isSome = true ∧
    modelC7.positions[(0 : Nat)]? = some ⟨⟨5, 0⟩, ⟨6, 0⟩, ⟨7, 0⟩⟩ ∧
    ((⟨0, 0⟩ : FVal) = ⟨0, 0⟩ ∧ (⟨0, 0⟩ : FVal) = ⟨0, 0⟩ ∧ (⟨1, 0⟩ : FVal) = ⟨1, 0⟩) ∧
    readIndices (toL "1") = .ok ⟨0, none, none⟩ ∧
    readIndices (toL "3" ++ '/' :: toL "2") = .ok ⟨2, some 1, none⟩ ∧
    readIndices (toL "4" ++ '/' :: (toL "3" ++ '/' :: toL "2")) =
      .ok ⟨3, some 2, some 1⟩ :=
  ⟨(claim_C7 modelC7).1 ⟨0, some 0, some 0⟩ (by decide),
   ((claim_C7 modelC7).2.1 ⟨0, some 0, none⟩
      ⟨⟨5, 0⟩, ⟨6, 0⟩, ⟨7, 0⟩, ⟨0, 0⟩, ⟨0, 0⟩, ⟨1, 0⟩, ⟨4, 0⟩, ⟨8, 0⟩⟩ (by decide)).1,
   ((claim_C7 modelC7).2.1 ⟨0, some 0, none⟩
      ⟨⟨5, 0⟩, ⟨6, 0⟩, ⟨7, 0⟩, ⟨0, 0⟩, ⟨0, 0⟩, ⟨1, 0⟩, ⟨4, 0⟩, ⟨8, 0⟩⟩ (by decide)).2.1 rfl,
   (claim_C7 modelC7).2.2.1 (toL "1") 1 (by decide) (by decide) (by decide),
   (claim_C7 modelC7).2.2.2.1 (toL "3") (toL "2") 3 2 (by decide) (by decide)
     (by decide) (by decide) (by decide) (by decide),
   (claim_C7 modelC7).2.2.2.2 (toL "4") (toL "3") (toL "2") 4 3 2 (by decide) (by decide)
     (by decide) (by decide) (by decide) (by decide) (by decide) (by decide) (by decide)⟩

/-- C8: empty lines, lines whose first character is `#`, and lines whose
leading token is unknown contribute zero records to all four tables and
never abort parsing, regardless of their position in the stream; the
remaining lines parse exactly as if the skipped line were absent. -/
theorem claim_C8 (pre post : List (List Char)) (line : List Char)
    (h : line = [] ∨ line.headD ' ' = '#' ∨ tokenize (lineTokenStr line) = .unknown) :
    parseLines (pre ++ line :: post) = parseLines (pre ++ post) := by
  unfold parseLines
  rw [parseLinesFrom_append, parseLinesFrom_append]
  cases hm : parseLinesFrom emptyModel pre with
  | error e => rfl
  | ok m2 =>
    dsimp only
    rw [parseLinesFrom_cons, processLine_skip m2 line h]

/-- C8 witness: `claim_C8` dropping an unknown-token line between two
position records. -/
theorem claim_C8_witness :
    parseLines ([toL "v 1 2 3"] ++ toL "curve 5" :: [toL "v 4 5 6"]) =
      parseLines ([toL "v 1 2 3"] ++ [toL "v 4 5 6"]) :=
  claim_C8 [toL "v 1 2 3"] [toL "v 4 5 6"] (toL "curve 5") (by decide)

/-- C9: the corner-vertex diagnostic pass does not affect the vertex
buffer — the build returns the same buffer with diagnostics enabled and
disabled — and when the build succeeds the diagnostic run always returns
(its result is the scan state, whose per-corner `found` flags report a
search that found no candidate as a failure instead of raising an
error). -/
theorem claim_C9 (m : Model) :
    (loadObj m true).map Prod.fst = (loadObj m false).map Prod.fst ∧
    ∀ vs, buildVertices m = some vs →
      loadObj m true = some (vs, some (cornerScan vs)) := by
  unfold loadObj
  cases h : buildVertices m with
  | none =>
    exact ⟨rfl, fun vs hvs => absurd hvs (by simp)⟩
  | some vs0 =>
    refine ⟨rfl, fun vs hvs => ?_⟩
    cases hvs
    rfl

/-- C9 witness: `claim_C9` on the empty model: the buffers agree, and the
scan of the empty vertex sequence reports all four corner searches as
failed (`found = false`) while the call still returns normally. -/
theorem claim_C9_witness :
    (loadObj emptyModel true).map Prod.fst = (loadObj emptyModel false).map Prod.fst ∧
    loadObj emptyModel true = some ([], some (cornerScan [])) ∧
    (cornerScan []).c00.found = false ∧ (cornerScan []).c01.found = false ∧
    (cornerScan []).c10.found = false ∧ (cornerScan []).c11.found = false :=
  ⟨(claim_C9 emptyModel).1, (claim_C9 emptyModel).2 [] (by decide),
   by decide, by decide, by decide, by decide⟩

/-- C10: every corner produced by a successful `readIndices` parse that
carries a normal index also carries a texture-coordinate index — the parser
can never produce a normal reference without a uv reference, because the
normal field is only read after the uv field. -/
theorem claim_C10 (s : List Char) (ix : Indices)
    (h : readIndices s = .ok ix) (hn : ix.normal.isSome = true) :
    ix.uv.isSome = true := by
  unfold readIndices at h
  split at h
  · cases h
  · split at h
    · injection h with h2
      subst h2
      simp at hn
    · split at h
      · cases h
      · split at h
        · injection h with h2
          subst h2
          simp at hn
        · split at h
          · cases h
          · injection h with h2
            subst h2
            rfl

/-- C10 witness: `claim_C10` on the corner specification `1/2/3`, whose
parse carries both a uv and a normal reference. -/
theorem claim_C10_witness : (Indices.mk 0 (some 1) (some 2)).uv.isSome = true :=
  claim_C10 (toL "1/2/3") ⟨0, some 1, some 2⟩ (by decide) (by decide)
